import Mathlib

/-!
# Verification of the TodoList task-store component

Shallow embedding of `src/TodoList.tsx` (the advanced variant of the
component, lines 248-791 of the combined source, which is the variant the
design document describes; the earlier variant at the top of the file is the
historical buggy original whose defects the design notes call out explicitly).

The component's state relevant to the claims is the task list `todos`
together with `isLoading` and `error`.  Mutations (`ajouterTodo`,
`toggleTask`, `supprimerTask`, `clearCompletedTodos`, `marquerToutCompleted`)
and the derived view (`filteredTodos`, `calculerProgress`) are embedded as
pure functions on that state; the asynchronous fetch is embedded as a
function of the pre-state and the fetch outcome.  The outcome distinguishes
a rejected fetch from a received response, carrying the status flag and the
parsed body's shape, because the code checks neither the status nor the
shape of the array elements; the store the fetch writes is therefore
modelled at the JavaScript runtime level (`JsTask`), where a read property
may be `undefined`.  JavaScript numbers used as identifiers and timestamps
are modelled as `Nat`; `Date.now()` is an input parameter wherever the
source calls it.
-/

set_option autoImplicit false

namespace TodoList

/-- Priority enum `"low" | "medium" | "high"` from the `Task` interface. -/
inductive Priority where
  | low
  | medium
  | high
deriving DecidableEq, Repr

/-- The `Task` interface of the source:
`id: number; titre: string; isCompleted: boolean; userId?: number;
createdAt?: Date; priority?: "low" | "medium" | "high"`. -/
structure Task where
  id : Nat
  titre : String
  isCompleted : Bool
  userId : Option Nat := none
  createdAt : Option Nat := none
  priority : Option Priority := none
deriving DecidableEq, Repr

/-- The `FilterType` union `"tous" | "active" | "terminé" | "high-priority"`. -/
inductive Filtre where
  | tous
  | active
  | termine
  | highPriority
deriving DecidableEq, Repr

/-- JavaScript whitespace as recognised by `String.prototype.trim` (the
characters that matter here: space, tab, LF, CR, VT, FF). -/
def isJsSpace (c : Char) : Bool :=
  c = ' ' || c = '\t' || c = '\n' || c = '\r' || c = '\x0b' || c = '\x0c'

/-- Model of `String.prototype.trim`: strip leading and trailing whitespace. -/
def strTrim (s : String) : String :=
  String.mk (((s.data.dropWhile isJsSpace).reverse.dropWhile isJsSpace).reverse)

/-- Function `ajouterTodo` (source lines 325-344).  The source reads the component
state (`inputValue`, `todos`, `maxTodos`, `enablePriority`,
`selectedPriority`) and the clock (`Date.now()`, `new Date()`); it writes
`todos` and `inputValue`.  We pass all of those explicitly and return the
pair (new `todos`, new `inputValue`); the `lastUpdated` timestamp write is
not modelled (no claim concerns it).

```
if (inputValue.trim() !== "") {
  if (todos.length >= maxTodos) { alert(...); return; }
  const newTask = { id: Date.now(), titre: inputValue.trim(),
    isCompleted: false, createdAt: new Date(),
    priority: enablePriority ? selectedPriority : "medium" };
  setTodos((prevTodos) => [...prevTodos, newTask]);
  setInputValue("");
}
``` -/
def ajouterTodo (maxTodos : Nat) (enablePriority : Bool) (selectedPriority : Priority)
    (nowId now : Nat) (inputValue : String) (todos : List Task) :
    List Task × String :=
  if strTrim inputValue ≠ "" then
    if todos.length ≥ maxTodos then
      (todos, inputValue)
    else
      (todos ++ [{ id := nowId, titre := strTrim inputValue, isCompleted := false,
                   createdAt := some now,
                   priority := some (if enablePriority then selectedPriority else .medium) }],
       "")
  else
    (todos, inputValue)

/-- Function `toggleTask` (source lines 346-352):
`prevTodos.map((todo) => todo.id === id ? { ...todo, isCompleted: !todo.isCompleted } : todo)`. -/
def toggleTask (id : Nat) (todos : List Task) : List Task :=
  todos.map (fun todo =>
    if todo.id = id then { todo with isCompleted := !todo.isCompleted } else todo)

/-- Function `supprimerTask` (source lines 354-356):
`prevTodos.filter((todo) => todo.id != id)`.  The parameter is typed
`number | string` in the source and compared with loose `!=`; we model the
numeric-identifier case, on which loose `!=` coincides with `≠`. -/
def supprimerTask (id : Nat) (todos : List Task) : List Task :=
  todos.filter (fun todo => todo.id ≠ id)

/-- Function `clearCompletedTodos` (source lines 404-406):
`prevTodos.filter((todo) => !todo.isCompleted)`. -/
def clearCompletedTodos (todos : List Task) : List Task :=
  todos.filter (fun todo => !todo.isCompleted)

/-- Function `marquerToutCompleted` (source lines 408-412):
`prevTodos.map((todo) => ({ ...todo, isCompleted: true }))`. -/
def marquerToutCompleted (todos : List Task) : List Task :=
  todos.map (fun todo => { todo with isCompleted := true })

/-- Derived counter `remainingTasks` (source lines 388-390):
`todos.filter((todo) => !todo.isCompleted).length`. -/
def remainingTasks (todos : List Task) : Nat :=
  (todos.filter (fun todo => !todo.isCompleted)).length

/-- Derived counter `completedTasks` (source line 391): `todos.length - remainingTasks`. -/
def completedTasks (todos : List Task) : Nat :=
  todos.length - remainingTasks todos

/-- Model of `Math.round((completed / total) * 100)` over exact rationals: JavaScript
`Math.round` rounds to the nearest integer, half toward positive infinity,
which for nonnegative `c` and positive `t` is `⌊(100·c)/t + 1/2⌋ =
⌊(200·c + t) / (2·t)⌋`. -/
def mathRoundPct (c t : Nat) : Nat :=
  (200 * c + t) / (2 * t)

/-- Function `calculerProgress` (source lines 398-402):
```
if (todos.length === 0) return "0%";
const completed = completedTasks;
return `${Math.round((completed / todos.length) * 100)}%`;
``` -/
def calculerProgress (todos : List Task) : String :=
  if todos.length = 0 then "0%"
  else toString (mathRoundPct (completedTasks todos) todos.length) ++ "%"

/-- The test `todo.priority === "high"` used by the high-priority filter
and by the sort comparator. -/
def isHigh (t : Task) : Bool :=
  match t.priority with
  | some .high => true
  | _ => false

/-- The filter predicate of `filteredTodos` (source lines 359-371). -/
def matchesFiltre (filtre : Filtre) (todo : Task) : Bool :=
  match filtre with
  | .termine => todo.isCompleted
  | .active => !todo.isCompleted
  | .highPriority => isHigh todo && !todo.isCompleted
  | .tous => true

/-- The sort comparator of `filteredTodos` (source lines 372-376):
```
if (a.priority === "high" && b.priority !== "high") return -1;
if (b.priority === "high" && a.priority !== "high") return 1;
return 0;
``` -/
def sortComparator (a b : Task) : Int :=
  if isHigh a && !isHigh b then -1
  else if isHigh b && !isHigh a then 1
  else 0

/-- Stable insertion of `x` (originally earlier than every element of the
list) into an already-sorted list: `x` goes before the first element it does
not compare strictly greater than. -/
def insertCmp (x : Task) : List Task → List Task
  | [] => [x]
  | y :: ys => if sortComparator x y ≤ 0 then x :: y :: ys else y :: insertCmp x ys

/-- Model of `Array.prototype.sort` with `sortComparator`, modelled as a stable sort
(ECMAScript 2019 and later guarantee `sort` is stable, and for a comparator
that induces a strict weak order - as this one does, with the two classes
"high" and "not high" - every stable sort produces the same output). -/
def sortTodos : List Task → List Task
  | [] => []
  | x :: xs => insertCmp x (sortTodos xs)

/-- Derived view `filteredTodos` (source lines 358-376): filter by the current mode, then
sort with the high-priority-first comparator. -/
def filteredTodos (filtre : Filtre) (todos : List Task) : List Task :=
  sortTodos (todos.filter (matchesFiltre filtre))

/-- The `ApiResponse` interface (source lines 268-273): the shape of one
record returned by the remote task source. -/
structure ApiItem where
  id : Nat
  title : String
  completed : Bool
  userId : Nat
deriving DecidableEq, Repr

/-- The field mapping applied to one fetched record at position `index`
(source lines 301-309):
```
{ id: item.id, titre: item.title, isCompleted: item.completed,
  userId: item.userId, createdAt: new Date(),
  priority: index % 3 === 0 ? "high" : index % 2 === 0 ? "medium" : "low" }
``` -/
def apiToTask (now : Nat) (index : Nat) (item : ApiItem) : Task :=
  { id := item.id, titre := item.title, isCompleted := item.completed,
    userId := some item.userId, createdAt := some now,
    priority := some (if index % 3 = 0 then Priority.high
                      else if index % 2 = 0 then Priority.medium
                      else Priority.low) }

/-- The mapping `data.map((item, index) => ...)` of the fetch success path.  The
component's `enablePriority` flag is in scope at this point of the source
but is not consulted by the mapping; it is passed here so that the claim
about it can be stated. -/
def fetchMap (enablePriority : Bool) (now : Nat) (items : List ApiItem) : List Task :=
  items.enum.map (fun p => apiToTask now p.1 p.2)

/-- Runtime value of one mapped task record (source lines 301-309) as
JavaScript actually builds it: reading a property of a non-null element that
is not a well-formed record yields `undefined` (modelled `none`), so `id`,
`titre` and `isCompleted` can be `undefined` at runtime even though the
TypeScript annotation says `Task[]`.  A well-typed `Task` embeds via
`rawOfTask`. -/
structure JsTask where
  id : Option Nat
  titre : Option String
  isCompleted : Option Bool
  userId : Option Nat
  createdAt : Option Nat
  priority : Option Priority
deriving DecidableEq, Repr

/-- The runtime value of a well-typed task. -/
def rawOfTask (t : Task) : JsTask :=
  { id := some t.id, titre := some t.titre, isCompleted := some t.isCompleted,
    userId := t.userId, createdAt := t.createdAt, priority := t.priority }

/-- One element of a parsed JSON array, abstracted by the only reads the
mapping performs: `null` (any property read throws a TypeError), or a
non-null value given by the four properties `id`, `title`, `completed`,
`userId` that the code reads - `none` meaning the read yields `undefined`
(the element is not an object, or the property is absent). -/
inductive JsonElem where
  | null
  | value (id : Option Nat) (title : Option String) (completed : Option Bool)
      (userId : Option Nat)
deriving DecidableEq, Repr

/-- The runtime view of a well-formed record. -/
def elemOfApiItem (item : ApiItem) : JsonElem :=
  .value (some item.id) (some item.title) (some item.completed) (some item.userId)

/-- What `await response.json()` followed by `data.map(...)` can see in a
received response: a body that is not valid JSON (`response.json()`
throws), a parseable body that is not an array (`data.map` is not a
function and throws), or an array of elements (the map runs). -/
inductive ResponseBody where
  | invalidJson
  | nonArray
  | array (items : List JsonElem)
deriving DecidableEq, Repr

/-- Outcome of `await fetch(...)`: the promise rejects (network error), or
a response arrives carrying its status flag `ok` (2xx or not) and a body.
The source never reads `response.ok` or `response.status`. -/
inductive FetchOutcome where
  | networkError
  | response (ok : Bool) (body : ResponseBody)
deriving DecidableEq, Repr

/-- Execution of `data.map((item, index) => ({...}))` from position `index`
on: `none` when it throws (the first `null` element makes `item.id` throw a
TypeError), otherwise the mapped runtime records, `undefined` fields
included. -/
def mapJson (now : Nat) : Nat → List JsonElem → Option (List JsTask)
  | _, [] => some []
  | _, .null :: _ => none
  | index, .value id title completed userId :: rest =>
    (mapJson now (index + 1) rest).map (fun ts =>
      { id := id, titre := title, isCompleted := completed, userId := userId,
        createdAt := some now,
        priority := some (if index % 3 = 0 then Priority.high
                          else if index % 2 = 0 then Priority.medium
                          else Priority.low) } :: ts)

/-- The component state the fetch effect touches, at the runtime level
(`todos` can hold the ill-typed records the fetch writes): `todos`,
`isLoading`, `error`. -/
structure FetchState where
  todos : List JsTask
  isLoading : Bool
  error : String
deriving DecidableEq, Repr

/-- The state the `catch` and `finally` blocks leave:
`setError("Erreur lors du chargement"); setIsLoading(false)`; `todos`
untouched. -/
def catchState (s : FetchState) : FetchState :=
  { todos := s.todos, isLoading := false, error := "Erreur lors du chargement" }

/-- The complete run of the `fetchTodos` async body (source lines 291-318)
as a function of the pre-state and the fetch outcome:
`setIsLoading(true); setError("")`; `const response = await fetch(...)` (a
rejection jumps to `catch`); `await response.json()` with no `response.ok`
check anywhere, so the status flag is never consulted; `data.map(...)`
(throws on a non-array body or on a `null` element, landing in the same
`catch`); when the map completes,
`setTodos([...initialTasks, ...apiTasks])` - the `initialTasks` prop, not
the current `todos` - with `setError` never called again, leaving `error`
empty; and `finally setIsLoading(false)`.  The `s` argument is the state at
completion time, so tasks the user added while the fetch was pending are in
`s.todos`. -/
def fetchTodosRun (initialTasks : List Task) (enablePriority : Bool) (now : Nat)
    (s : FetchState) : FetchOutcome → FetchState
  | .networkError => catchState s
  | .response _ body =>
    match body with
    | .invalidJson => catchState s
    | .nonArray => catchState s
    | .array items =>
      match mapJson now 0 items with
      | none => catchState s
      | some apiTasks =>
        { todos := initialTasks.map rawOfTask ++ apiTasks,
          isLoading := false, error := "" }

/-- Component configuration (source lines 275-279): `initialTasks`,
`maxTodos` (default 100), `enablePriority` (default false). -/
structure Config where
  initialTasks : List Task := []
  maxTodos : Nat := 100
  enablePriority : Bool := false

/-- A user-visible mutation of the store, or the completion of the one-shot
fetch.  `add` carries the input string, the selected priority, and the two
clock reads (`Date.now()` for the id, `new Date()` for `createdAt`). -/
inductive Op where
  | add (input : String) (selectedPriority : Priority) (nowId now : Nat)
  | toggle (id : Nat)
  | remove (id : Nat)
  | clearCompleted
  | completeAll
  | fetchSuccess (now : Nat) (items : List ApiItem)

/-- Effect of one operation on the task list. -/
def applyOp (cfg : Config) (todos : List Task) : Op → List Task
  | .add input sp nowId now =>
    (ajouterTodo cfg.maxTodos cfg.enablePriority sp nowId now input todos).1
  | .toggle id => toggleTask id todos
  | .remove id => supprimerTask id todos
  | .clearCompleted => clearCompletedTodos todos
  | .completeAll => marquerToutCompleted todos
  | .fetchSuccess now items =>
    cfg.initialTasks ++ fetchMap cfg.enablePriority now items

/-- Effect of a sequence of operations on the task list. -/
def applyOps (cfg : Config) (todos : List Task) : List Op → List Task
  | [] => todos
  | op :: ops => applyOps cfg (applyOp cfg todos op) ops

/-- The ids of the tasks in the store, in order. -/
def storeIds (todos : List Task) : List Nat :=
  todos.map (fun t => t.id)

/-- Freshness side condition on one operation: an `add` uses an id not
already present; a fetch completion delivers a duplicate-free result.  The
other operations need nothing. -/
def opFresh (cfg : Config) (todos : List Task) : Op → Prop
  | .add _ _ nowId _ => nowId ∉ storeIds todos
  | .fetchSuccess now items =>
    (storeIds (cfg.initialTasks ++ fetchMap cfg.enablePriority now items)).Nodup
  | _ => True

/-- Freshness along a whole operation sequence. -/
def opsFresh (cfg : Config) (todos : List Task) : List Op → Prop
  | [] => True
  | op :: ops => opFresh cfg todos op ∧ opsFresh cfg (applyOp cfg todos op) ops

/-- A small heap of JavaScript arrays, addressed by index, to state the
frame property of the view computation: `todos.filter(...)` allocates a
fresh array and `.sort(...)` mutates that fresh array in place.  `viewStep`
performs the computation of `filteredTodos` (source lines 358-376) against
the heap: read the store's array, allocate the filter result, sort the
allocation in place, and return the view together with the final heap. -/
def viewStep (heap : List (List Task)) (storeRef : Nat) (filtre : Filtre) :
    List Task × List (List Task) :=
  let todos := heap.getD storeRef []
  let copyRef := heap.length
  let heap1 := heap ++ [todos.filter (matchesFiltre filtre)]
  let heap2 := heap1.set copyRef (sortTodos (heap1.getD copyRef []))
  (heap2.getD copyRef [], heap2)

/-- A concrete task standing for one the user added while the fetch was
pending (its id, `5`, is a stand-in for a `Date.now()` value). -/
def pendingAddTask : Task :=
  { id := 5, titre := "user", isCompleted := false }

/-- A concrete record as returned by the remote task source. -/
def remoteItem : ApiItem :=
  { id := 1, title := "remote", completed := false, userId := 3 }

/-- The component state at the moment a pending fetch completes, after the
user added `pendingAddTask` while it was loading. -/
def pendingState : FetchState :=
  { todos := [rawOfTask pendingAddTask], isLoading := true, error := "" }

/-! ## Theorems -/

/-- C1: `ajouterTodo` is a no-op on the task list when the trimmed input is
empty or the task count is at or above `maxTodos`; otherwise it appends
exactly one new task, with `isCompleted = false`, growing the list by
exactly one. -/
theorem ajouterTodo_spec (maxTodos : Nat) (ep : Bool) (sp : Priority)
    (nowId now : Nat) (input : String) (todos : List Task) :
    ((strTrim input = "" ∨ maxTodos ≤ todos.length) →
      (ajouterTodo maxTodos ep sp nowId now input todos).1 = todos)
    ∧ (strTrim input ≠ "" → todos.length < maxTodos →
      (ajouterTodo maxTodos ep sp nowId now input todos).1
        = todos ++ [{ id := nowId, titre := strTrim input, isCompleted := false,
                      createdAt := some now,
                      priority := some (if ep then sp else Priority.medium) }]
      ∧ ((ajouterTodo maxTodos ep sp nowId now input todos).1).length
          = todos.length + 1) := by
  constructor
  · rintro (h | h)
    · simp [ajouterTodo, h]
    · by_cases ht : strTrim input = ""
      · simp [ajouterTodo, ht]
      · simp [ajouterTodo, ht, h]
  · intro h1 h2
    have hge : ¬ todos.length ≥ maxTodos := by omega
    simp [ajouterTodo, h1, hge]

/-- Witness for C1: a whitespace-only input is rejected; a real input is
appended (trimmed) as a single fresh uncompleted task. -/
theorem ajouterTodo_spec_witness :
    (ajouterTodo 100 false Priority.medium 5 0 ("  ") []).1 = []
    ∧ (ajouterTodo 100 false Priority.medium 5 0 (" a ") []).1
        = [{ id := 5, titre := "a", isCompleted := false, createdAt := some 0,
             priority := some Priority.medium }] :=
  ⟨(ajouterTodo_spec 100 false Priority.medium 5 0 ("  ") []).1 (Or.inl (by decide)),
   (((ajouterTodo_spec 100 false Priority.medium 5 0 (" a ") []).2
      (by decide) (by decide)).1).trans (by decide)⟩

/-- C2 (code bug): the fetch success handler executes
`setTodos([...initialTasks, ...apiTasks])` with the `initialTasks` prop, not
the current task list, so a task the user added while the fetch was pending
is dropped instead of being preserved by an additive append. -/
theorem fetchTodosRun_overwrites_concurrent_add :
    (fetchTodosRun [] false 0 pendingState
        (.response true (.array [elemOfApiItem remoteItem]))).todos
      = [rawOfTask (apiToTask 0 0 remoteItem)]
    ∧ rawOfTask pendingAddTask ∈ pendingState.todos
    ∧ rawOfTask pendingAddTask ∉ (fetchTodosRun [] false 0 pendingState
        (.response true (.array [elemOfApiItem remoteItem]))).todos := by
  refine ⟨by decide, by decide, by decide⟩

/-- C3 (code bug): the fetch body checks neither `response.ok` nor the
shape of the parsed array elements, so a non-2xx response whose body parses
to the JSON array `[1]` (one non-null, non-record element) runs the success
path: `error` stays empty, and the store is overwritten with one junk
record - every read property `undefined` - instead of being left exactly as
it was.  Only outcomes on which `response.json()` or `data.map` actually
throws reach the `catch` the claim describes
(`fetchTodosRun_throw_cases`). -/
theorem fetchTodosRun_missing_failure_check :
    (fetchTodosRun [] false 0 pendingState
        (.response false (.array [.value none none none none]))).error = ""
    ∧ (fetchTodosRun [] false 0 pendingState
        (.response false (.array [.value none none none none]))).isLoading = false
    ∧ (fetchTodosRun [] false 0 pendingState
        (.response false (.array [.value none none none none]))).todos
        = [{ id := none, titre := none, isCompleted := none, userId := none,
             createdAt := some 0, priority := some Priority.high }]
    ∧ (fetchTodosRun [] false 0 pendingState
        (.response false (.array [.value none none none none]))).todos
        ≠ pendingState.todos := by
  refine ⟨by decide, by decide, by decide, by decide⟩

/-- Every outcome on which the body does throw - a rejected fetch, an
unparseable body, a non-array body, or an array with a `null` element -
lands in the `catch`: non-empty error, loading cleared, store untouched. -/
theorem fetchTodosRun_throw_cases (initialTasks : List Task) (ep : Bool)
    (now : Nat) (s : FetchState) (ok : Bool) (items : List JsonElem) :
    fetchTodosRun initialTasks ep now s .networkError = catchState s
    ∧ fetchTodosRun initialTasks ep now s (.response ok .invalidJson) = catchState s
    ∧ fetchTodosRun initialTasks ep now s (.response ok .nonArray) = catchState s
    ∧ (mapJson now 0 items = none →
        fetchTodosRun initialTasks ep now s (.response ok (.array items)) = catchState s)
    ∧ (catchState s).todos = s.todos
    ∧ (catchState s).isLoading = false
    ∧ (catchState s).error ≠ "" := by
  refine ⟨rfl, rfl, rfl, fun h => ?_, rfl, rfl, ?_⟩
  · simp [fetchTodosRun, h]
  · show ("Erreur lors du chargement" : String) ≠ ""
    decide

/-- On an array of well-formed records the runtime mapping never throws and
produces exactly the runtime values of the typed mapping. -/
theorem mapJson_of_wellFormed (now : Nat) (items : List ApiItem) :
    ∀ index : Nat,
      mapJson now index (items.map elemOfApiItem)
        = some ((items.enumFrom index).map (fun p => rawOfTask (apiToTask now p.1 p.2))) := by
  induction items with
  | nil => intro index; rfl
  | cons item rest ih =>
    intro index
    simp only [List.map_cons, elemOfApiItem, mapJson, ih (index + 1), Option.map_some',
      List.enumFrom_cons]
    rfl

/-- The runtime fetch run refines the typed success model: on a response
whose body is an array of well-formed records, the final state is loaded,
error-free, and holds the runtime values of `initialTasks ++ fetchMap ...`,
whatever the status flag was. -/
theorem fetchTodosRun_wellFormed_success (initialTasks : List Task) (ep : Bool)
    (now : Nat) (s : FetchState) (ok : Bool) (items : List ApiItem) :
    fetchTodosRun initialTasks ep now s (.response ok (.array (items.map elemOfApiItem)))
      = { todos := (initialTasks ++ fetchMap ep now items).map rawOfTask,
          isLoading := false, error := "" } := by
  simp only [fetchTodosRun, mapJson_of_wellFormed now items 0]
  simp [fetchMap, List.map_append, List.map_map, List.enum]

/-- C4: `calculerProgress` is "0%" on the empty list, "100%" on a non-empty
all-completed list, and in general prints the ratio completed/total as a
percentage rounded to the nearest integer (the rounding error is at most
half a percent, ties rounded up). -/
theorem calculerProgress_spec (todos : List Task) :
    (todos.length = 0 → calculerProgress todos = "0%")
    ∧ (todos ≠ [] → (∀ t ∈ todos, t.isCompleted = true) →
        calculerProgress todos = "100%")
    ∧ (todos ≠ [] →
        calculerProgress todos
          = toString (mathRoundPct (completedTasks todos) todos.length) ++ "%"
        ∧ -(todos.length : ℤ)
            ≤ 200 * (completedTasks todos : ℤ)
              - 2 * (mathRoundPct (completedTasks todos) todos.length : ℤ) * todos.length
        ∧ 200 * (completedTasks todos : ℤ)
              - 2 * (mathRoundPct (completedTasks todos) todos.length : ℤ) * todos.length
            < todos.length) := by
  refine ⟨fun h => by simp [calculerProgress, h], fun hne hall => ?_, fun hne => ?_⟩
  · have hlen : todos.length ≠ 0 := fun h => hne (List.length_eq_zero.mp h)
    have hrem : remainingTasks todos = 0 := by
      unfold remainingTasks
      simp only [List.length_eq_zero, List.filter_eq_nil_iff]
      intro t ht
      simp [hall t ht]
    have hcomp : completedTasks todos = todos.length := by
      simp [completedTasks, hrem]
    have hround : mathRoundPct todos.length todos.length = 100 := by
      unfold mathRoundPct
      have h1 : 200 * todos.length + todos.length = todos.length * 201 := by ring
      have h2 : 2 * todos.length = todos.length * 2 := by ring
      rw [h1, h2, Nat.mul_div_mul_left _ _ (Nat.pos_of_ne_zero hlen)]
    simp only [calculerProgress, hlen, if_false, hcomp, hround]
    decide
  · have hlen : todos.length ≠ 0 := fun h => hne (List.length_eq_zero.mp h)
    refine ⟨by simp [calculerProgress, hlen], ?_, ?_⟩ <;>
    · have hpos : 0 < 2 * todos.length := by omega
      have h1 := Nat.div_add_mod (200 * completedTasks todos + todos.length)
        (2 * todos.length)
      have h2 := Nat.mod_lt (200 * completedTasks todos + todos.length) hpos
      unfold mathRoundPct
      have h1z : 2 * (todos.length : ℤ)
            * (((200 * completedTasks todos + todos.length) / (2 * todos.length) : ℕ) : ℤ)
          + (((200 * completedTasks todos + todos.length) % (2 * todos.length) : ℕ) : ℤ)
          = 200 * (completedTasks todos : ℤ) + todos.length := by exact_mod_cast h1
      have h2z : (((200 * completedTasks todos + todos.length) % (2 * todos.length) : ℕ) : ℤ)
          < 2 * (todos.length : ℤ) := by exact_mod_cast h2
      have h3z : (0 : ℤ)
          ≤ (((200 * completedTasks todos + todos.length) % (2 * todos.length) : ℕ) : ℤ) :=
        Int.natCast_nonneg _
      linarith

/-- Witness for C4: the empty store reads "0%", and a one-task store with
that task completed reads "100%". -/
theorem calculerProgress_spec_witness :
    calculerProgress [] = "0%"
    ∧ calculerProgress [{ id := 1, titre := "a", isCompleted := true }] = "100%" :=
  ⟨(calculerProgress_spec []).1 rfl,
   (calculerProgress_spec [{ id := 1, titre := "a", isCompleted := true }]).2.1
     (by decide) (by decide)⟩

/-- C8 counterexample: with `enablePriority = false`, two identical fetched
records still receive different, position-derived priorities (`high` at
index 0, `low` at index 1): the mapping never consults the flag. -/
theorem fetchMap_priority_counterexample :
    (fetchMap false 0 [remoteItem, remoteItem]).map (fun t => t.priority)
      = [some Priority.high, some Priority.low] := by decide

/-- C8 amended: the Remote Loader assigns the position-derived cyclic
priority (high at indices divisible by 3, else medium at even indices, else
low) to every mapped task, for both values of `enablePriority`. -/
theorem fetchMap_priority_always (ep : Bool) (now : Nat) (items : List ApiItem)
    (i : Nat) (item : ApiItem) (h : items[i]? = some item) :
    (fetchMap ep now items)[i]? = some (apiToTask now i item)
    ∧ (apiToTask now i item).priority
        = some (if i % 3 = 0 then Priority.high
                else if i % 2 = 0 then Priority.medium
                else Priority.low) := by
  refine ⟨?_, rfl⟩
  simp [fetchMap, List.getElem?_map, List.getElem?_enum, h]

/-- Witness for C8 amended: the second of two fetched records gets `low`,
whether or not the priority feature is enabled. -/
theorem fetchMap_priority_always_witness :
    (fetchMap false 0 [remoteItem, remoteItem])[1]? = some (apiToTask 0 1 remoteItem)
    ∧ (apiToTask 0 1 remoteItem).priority = some Priority.low := by
  have h := fetchMap_priority_always false 0 [remoteItem, remoteItem] 1 remoteItem (by decide)
  exact ⟨h.1, h.2.trans (by decide)⟩

/-- C6: `supprimerTask` removes exactly the tasks matching the identifier
(keeping every other task), is a silent no-op when nothing matches, and is
idempotent. -/
theorem supprimerTask_spec (id : Nat) (todos : List Task) :
    (∀ t ∈ supprimerTask id todos, t.id ≠ id)
    ∧ (∀ t ∈ todos, t.id ≠ id → t ∈ supprimerTask id todos)
    ∧ ((∀ t ∈ todos, t.id ≠ id) → supprimerTask id todos = todos)
    ∧ supprimerTask id (supprimerTask id todos) = supprimerTask id todos := by
  refine ⟨?_, ?_, ?_, ?_⟩
  · intro t ht
    have := (List.mem_filter.mp ht).2
    simpa using this
  · intro t ht hne
    exact List.mem_filter.mpr ⟨ht, by simpa using hne⟩
  · intro hall
    apply List.filter_eq_self.mpr
    intro t ht
    simpa using hall t ht
  · unfold supprimerTask
    rw [List.filter_filter]
    simp

/-- Witness for C6: removing id 5 from a store that lacks it is a no-op,
and a surviving task is still present after removing id 1. -/
theorem supprimerTask_spec_witness :
    supprimerTask 9 [pendingAddTask] = [pendingAddTask]
    ∧ pendingAddTask ∈ supprimerTask 1 [pendingAddTask] :=
  ⟨(supprimerTask_spec 9 [pendingAddTask]).2.2.1 (by decide),
   (supprimerTask_spec 1 [pendingAddTask]).2.1 pendingAddTask (by decide) (by decide)⟩

/-- C7: `toggleTask` is an involution on the task list, and is a silent
no-op when no task carries the identifier. -/
theorem toggleTask_spec (id : Nat) (todos : List Task) :
    toggleTask id (toggleTask id todos) = todos
    ∧ ((∀ t ∈ todos, t.id ≠ id) → toggleTask id todos = todos) := by
  constructor
  · unfold toggleTask
    rw [List.map_map]
    conv_rhs => rw [← List.map_id todos]
    apply List.map_congr_left
    intro t _
    by_cases h : t.id = id
    · simp only [Function.comp, id_eq]
      simp [h, Bool.not_not]
      rw [← h]
    · simp [Function.comp, h]
  · intro hall
    unfold toggleTask
    conv_rhs => rw [← List.map_id todos]
    apply List.map_congr_left
    intro t ht
    simp [hall t ht]

/-- Witness for C7: toggling id 5 twice restores the store, and toggling an
absent id 9 changes nothing. -/
theorem toggleTask_spec_witness :
    toggleTask 5 (toggleTask 5 [pendingAddTask]) = [pendingAddTask]
    ∧ toggleTask 9 [pendingAddTask] = [pendingAddTask] :=
  ⟨(toggleTask_spec 5 [pendingAddTask]).1,
   (toggleTask_spec 9 [pendingAddTask]).2 (by decide)⟩

/-- If `x` is high-priority, the comparator never puts it after anything,
so stable insertion puts it at the front. -/
theorem insertCmp_of_high (x : Task) (hx : isHigh x = true) (l : List Task) :
    insertCmp x l = x :: l := by
  cases l with
  | nil => rfl
  | cons y ys =>
    have : sortComparator x y ≤ 0 := by
      unfold sortComparator
      cases hy : isHigh y <;> simp [hx, hy]
    simp [insertCmp, this]

/-- If `x` is not high-priority, stable insertion into a block of
high-priority tasks followed by a block of non-high tasks lands exactly
between the blocks. -/
theorem insertCmp_of_not_high (x : Task) (hx : isHigh x = false) :
    ∀ (hs ns : List Task), (∀ h ∈ hs, isHigh h = true) →
      (∀ n ∈ ns, isHigh n = false) →
      insertCmp x (hs ++ ns) = hs ++ x :: ns := by
  intro hs
  induction hs with
  | nil =>
    intro ns _ hns
    cases ns with
    | nil => rfl
    | cons n ns' =>
      have hn := hns n (List.mem_cons_self n ns')
      have : sortComparator x n ≤ 0 := by
        unfold sortComparator
        simp [hx, hn]
      simp [insertCmp, this]
  | cons h hs' ih =>
    intro ns hhs hns
    have hh := hhs h (List.mem_cons_self h hs')
    have hcmp : ¬ sortComparator x h ≤ 0 := by
      unfold sortComparator
      simp [hx, hh]
    simp only [List.cons_append, insertCmp, if_neg hcmp]
    show h :: insertCmp x (hs' ++ ns) = h :: (hs' ++ x :: ns)
    rw [ih ns (fun a ha => hhs a (List.mem_cons_of_mem h ha)) hns]

/-- The stable sort with the high-priority comparator is exactly the stable
partition: the high-priority tasks in their original order, then everything
else in its original order. -/
theorem sortTodos_partition (l : List Task) :
    sortTodos l = l.filter isHigh ++ l.filter (fun t => !isHigh t) := by
  induction l with
  | nil => rfl
  | cons x xs ih =>
    simp only [sortTodos, ih]
    cases hx : isHigh x with
    | true =>
      rw [insertCmp_of_high x hx]
      simp [List.filter_cons, hx]
    | false =>
      rw [insertCmp_of_not_high x hx (xs.filter isHigh) (xs.filter (fun t => !isHigh t))
        (fun a ha => (List.mem_filter.mp ha).2)
        (fun a ha => by simpa using (List.mem_filter.mp ha).2)]
      simp [List.filter_cons, hx]

/-- C5: the high-priority-active view is exactly the high-and-active tasks
in their original relative order, and every view mode yields the stable
partition of the mode's filtered tasks: all high-priority tasks first, with
original relative order preserved inside each block. -/
theorem filteredTodos_spec (todos : List Task) :
    filteredTodos .highPriority todos
      = todos.filter (fun t => isHigh t && !t.isCompleted)
    ∧ ∀ filtre : Filtre,
        filteredTodos filtre todos
          = (todos.filter (matchesFiltre filtre)).filter isHigh
            ++ (todos.filter (matchesFiltre filtre)).filter (fun t => !isHigh t) := by
  constructor
  · unfold filteredTodos
    rw [sortTodos_partition]
    have hself : (todos.filter (matchesFiltre .highPriority)).filter isHigh
        = todos.filter (matchesFiltre .highPriority) := by
      apply List.filter_eq_self.mpr
      intro a ha
      have := (List.mem_filter.mp ha).2
      unfold matchesFiltre at this
      exact (Bool.and_eq_true _ _ |>.mp this).1
    have hnil : (todos.filter (matchesFiltre .highPriority)).filter (fun t => !isHigh t)
        = [] := by
      apply List.filter_eq_nil_iff.mpr
      intro a ha
      have := (List.mem_filter.mp ha).2
      unfold matchesFiltre at this
      simp [(Bool.and_eq_true _ _ |>.mp this).1]
    rw [hself, hnil, List.append_nil]
    rfl
  · intro filtre
    unfold filteredTodos
    exact sortTodos_partition _

/-- Toggling never changes the id sequence of the store. -/
theorem storeIds_toggleTask (id : Nat) (todos : List Task) :
    storeIds (toggleTask id todos) = storeIds todos := by
  unfold storeIds toggleTask
  rw [List.map_map]
  apply List.map_congr_left
  intro t _
  by_cases h : t.id = id <;> simp [Function.comp, h]

/-- Bulk-completing never changes the id sequence of the store. -/
theorem storeIds_marquerToutCompleted (todos : List Task) :
    storeIds (marquerToutCompleted todos) = storeIds todos := by
  unfold storeIds marquerToutCompleted
  rw [List.map_map]
  apply List.map_congr_left
  intro t _
  rfl

/-- Filtering the store only drops ids, in order. -/
theorem storeIds_filter_sublist (p : Task → Bool) (todos : List Task) :
    (storeIds (todos.filter p)).Sublist (storeIds todos) :=
  List.Sublist.map _ (List.filter_sublist todos)

/-- One operation preserves distinctness of ids, under its freshness side
condition. -/
theorem applyOp_nodup (cfg : Config) (todos : List Task) (op : Op)
    (h0 : (storeIds todos).Nodup) (hf : opFresh cfg todos op) :
    (storeIds (applyOp cfg todos op)).Nodup := by
  cases op with
  | add input sp nowId now =>
    have hfr : nowId ∉ storeIds todos := hf
    simp only [applyOp, ajouterTodo]
    split
    · split
      · exact h0
      · simp only [storeIds, List.map_append, List.map_cons, List.map_nil]
        rw [List.nodup_append]
        refine ⟨h0, List.nodup_singleton _, ?_⟩
        intro a ha hb
        have hab : a = nowId := by simpa using hb
        subst hab
        exact hfr ha
    · exact h0
  | toggle id =>
    simp only [applyOp]
    rw [storeIds_toggleTask]
    exact h0
  | remove id =>
    simp only [applyOp, supprimerTask]
    exact List.Nodup.sublist (storeIds_filter_sublist _ todos) h0
  | clearCompleted =>
    simp only [applyOp, clearCompletedTodos]
    exact List.Nodup.sublist (storeIds_filter_sublist _ todos) h0
  | completeAll =>
    simp only [applyOp]
    rw [storeIds_marquerToutCompleted]
    exact h0
  | fetchSuccess now items =>
    exact hf

/-- C9 counterexample: two adds whose `Date.now()` reads fall in the same
millisecond produce two tasks with the same id, so the duplicate-free-ids
claim fails on a reachable state (empty initial store, default
configuration). -/
theorem duplicate_ids_reachable :
    ¬ (storeIds (applyOps {} []
        [Op.add ("a") Priority.medium 7 0, Op.add ("b") Priority.medium 7 0])).Nodup := by
  decide

/-- C9 amended: ids are pairwise distinct in every reachable state provided
the starting list has distinct ids and every id-introducing step is fresh:
each `add` uses an id not already present, and the fetch completion delivers
a duplicate-free list.  The code performs no uniqueness check of its own, so
these side conditions are genuine assumptions on the clock, the caller and
the remote source. -/
theorem storeIds_nodup_preserved (cfg : Config) (todos : List Task) (ops : List Op)
    (h0 : (storeIds todos).Nodup) (hf : opsFresh cfg todos ops) :
    (storeIds (applyOps cfg todos ops)).Nodup := by
  induction ops generalizing todos with
  | nil => exact h0
  | cons op ops ih =>
    exact ih _ (applyOp_nodup cfg todos op h0 hf.1) hf.2

/-- Witness for C9 amended: an add with a fresh id followed by a toggle and
a remove keeps ids distinct. -/
theorem storeIds_nodup_preserved_witness :
    (storeIds (applyOps {} []
      [Op.add ("a") Priority.medium 7 0, Op.toggle 7, Op.remove 7])).Nodup :=
  storeIds_nodup_preserved {} [] _ (by decide)
    (by unfold opsFresh opFresh; exact ⟨by decide, trivial, trivial, trivial⟩)

/-- Setting the cell just appended to a list overwrites only that cell. -/
theorem set_concat {α : Type*} (l : List α) (x y : α) :
    (l ++ [x]).set l.length y = l ++ [y] := by
  induction l with
  | nil => rfl
  | cons a l ih =>
    show a :: ((l ++ [x]).set l.length y) = a :: (l ++ [y])
    rw [ih]

/-- Reading below the boundary of an appended list reads the left part. -/
theorem getD_append_left {α : Type*} :
    ∀ (l l' : List α) (i : Nat) (d : α), i < l.length →
      (l ++ l').getD i d = l.getD i d
  | [], _, _, _, h => nomatch h
  | _ :: _, _, 0, _, _ => rfl
  | _ :: l, l', i + 1, d, h =>
    getD_append_left l l' i d (Nat.lt_of_succ_lt_succ h)

/-- Reading the cell just appended to a list yields the appended value. -/
theorem getD_concat_length {α : Type*} (l : List α) (x d : α) :
    (l ++ [x]).getD l.length d = x := by
  induction l with
  | nil => rfl
  | cons a l ih =>
    show (l ++ [x]).getD l.length d = x
    exact ih

/-- C10: computing the view mutates only the freshly allocated copy - the
store's array is bit-for-bit unchanged afterwards (same tasks, same fields,
same order), and the returned view is `filteredTodos` of the store's
tasks. -/
theorem viewStep_frame (heap : List (List Task)) (storeRef : Nat) (filtre : Filtre)
    (h : storeRef < heap.length) :
    (viewStep heap storeRef filtre).2.getD storeRef [] = heap.getD storeRef []
    ∧ (viewStep heap storeRef filtre).1
        = filteredTodos filtre (heap.getD storeRef []) := by
  simp only [viewStep]
  rw [getD_concat_length, set_concat]
  refine ⟨getD_append_left heap _ storeRef [] h, ?_⟩
  rw [getD_concat_length]
  rfl

/-- Witness for C10: on a one-array heap, the store cell is unchanged by the
view computation and the view is the filtered list. -/
theorem viewStep_frame_witness :
    (viewStep [[pendingAddTask]] 0 Filtre.tous).2.getD 0 [] = [pendingAddTask]
    ∧ (viewStep [[pendingAddTask]] 0 Filtre.tous).1
        = filteredTodos Filtre.tous [pendingAddTask] := by
  have h := viewStep_frame [[pendingAddTask]] 0 Filtre.tous (by decide)
  exact ⟨h.1.trans (by decide), h.2.trans (by decide)⟩

end TodoList
